import Mathlib

/-!
Shallow embedding of `check_paloalto2.py` (a Nagios-style monitoring probe for
Palo Alto firewalls).  Python floats and string-encoded counter values are
modelled as exact rationals (`ℚ`); every use of a counter value in the source
goes through `float(...)`, so a sample value is `Option ℚ`, with `none`
standing for an absent XML element or a non-numeric string (both of which make
the source raise before producing any metric).  The persisted state file
(`nagiosplugin.Cookie`) is modelled as an association list committed
atomically when the `with` block exits without an exception.
-/

namespace CheckPaloAlto

/-- The cookie contents: a string-keyed map of numeric values, as read from and
written to the shared state file. -/
abbrev Store := List (String × ℚ)

/-- Lookup of a key in the store, `none` when absent (first run for that key). -/
def Store.lookup : Store → String → Option ℚ
  | [], _ => none
  | (k, v) :: rest, key => if k = key then some v else Store.lookup rest key

/-- Python `cookie.get(key, default)`: the stored value, or the default when the
key is absent. -/
def Store.get (s : Store) (key : String) (dflt : ℚ) : ℚ :=
  (Store.lookup s key).getD dflt

/-- Python `cookie[key] = v`: replace the binding for `key`, or append it. -/
def Store.set : Store → String → ℚ → Store
  | [], key, v => [(key, v)]
  | (k, w) :: rest, key, v =>
      if k = key then (k, v) :: rest else (k, w) :: Store.set rest key v

/-- Round to the nearest integer with ties to even, the convention of Python's
built-in `round`. -/
def roundHalfEven (q : ℚ) : ℤ :=
  if q - ⌊q⌋ < 1 / 2 then ⌊q⌋
  else if 1 / 2 < q - ⌊q⌋ then ⌊q⌋ + 1
  else if ⌊q⌋ % 2 = 0 then ⌊q⌋ else ⌊q⌋ + 1

/-- Python `round(x, 2)`: round to two decimal digits. -/
def pyRound2 (q : ℚ) : ℚ := (roundHalfEven (q * 100) : ℚ) / 100

/-- Outcome of one `Throughput.probe` invocation.
`metrics` is the pair of returned rate metrics (`inBytes`/`outBytes`, bits/s);
`invalidInput` / `invalidOutput` are the two `print` + `sys.exit(3)` branches
of the "simple error handling" block; `exception` is an uncaught Python
exception (absent XML element or non-numeric counter string);
`nonPositiveInterval` is the `sys.exit(3)` taken when `diff_time <= 0`. -/
inductive ProbeOutcome where
  | metrics (inRate outRate : ℚ)
  | invalidInput
  | invalidOutput
  | exception
  | nonPositiveInterval
  deriving DecidableEq

/-- `Throughput.probe` from the source, for one interface id, from the point
where the API has answered: `api_inbytes`/`api_outbytes` are the fetched
counter values (`none` = absent or non-numeric, which raises), `currentTime`
is `time.time()`, and `store` is the cookie's persisted contents.  Returns the
outcome together with the store as left on disk: the cookie commits its three
writes together when the `with` block is left normally, and commits nothing
when it is left by `sys.exit` or an exception.  (The source's `or not
api_inbytes` clauses are unreachable once `float(api_inbytes)` has succeeded,
since a parseable string is non-empty; they add nothing to the model.) -/
def probe (id : String) (currentTime : ℚ) (api_inbytes api_outbytes : Option ℚ)
    (store : Store) : ProbeOutcome × Store :=
  match api_inbytes, api_outbytes with
  | none, _ => (ProbeOutcome.exception, store)
  | some _, none => (ProbeOutcome.exception, store)
  | some vi, some vo =>
    let old_inbytes := Store.get store (id ++ "i") vi
    let old_outbytes := Store.get store (id ++ "o") vo
    let old_time := Store.get store (id ++ "t") currentTime
    if vi < old_inbytes then (ProbeOutcome.invalidInput, store)
    else if vo < old_outbytes then (ProbeOutcome.invalidOutput, store)
    else
      let committed :=
        Store.set (Store.set (Store.set store (id ++ "i") vi) (id ++ "o") vo)
          (id ++ "t") currentTime
      let diff_time := currentTime - old_time
      if 0 < diff_time then
        (ProbeOutcome.metrics (pyRound2 ((vi - old_inbytes) / diff_time * 8))
          (pyRound2 ((vo - old_outbytes) / diff_time * 8)), committed)
      else (ProbeOutcome.nonPositiveInterval, committed)

/-- The exit code fixed by the probe itself: the three `sys.exit(3)` branches
exit with 3, and an uncaught exception is turned into exit code 3 by the
`nagiosplugin.guarded` wrapper around `main` (external library; per the spec,
every fault is recovered at the orchestrator boundary as UNKNOWN).  A normal
`metrics` return fixes no exit code here: it flows on to threshold
evaluation. -/
def probeExitCode : ProbeOutcome → Option ℕ
  | ProbeOutcome.metrics _ _ => none
  | _ => some 3

/-- The four monitoring-plugin states. -/
inductive PluginState where
  | ok
  | warn
  | critical
  | unknown
  deriving DecidableEq

/-- The standard plugin exit code of each state. -/
def PluginState.exitCode : PluginState → ℕ
  | PluginState.ok => 0
  | PluginState.warn => 1
  | PluginState.critical => 2
  | PluginState.unknown => 3

/-- `CertificateContext.evaluate` from the source: days-remaining `value`
against integer `warning`/`critical` thresholds, smaller is worse, both
boundaries inclusive. -/
def certEvaluate (warning critical : ℤ) (value : ℤ) : PluginState :=
  if value ≤ critical then PluginState.critical
  else if value ≤ warning then PluginState.warn
  else PluginState.ok

/-- One `<entry>` of the certificate listing, after date parsing: the
certificate name, the whole days until `not-valid-after`
(`(date_object - datetime.today()).days`), and the `status` text (`""` when
the element is absent). -/
structure CertEntry where
  name : String
  days : ℤ
  status : String

/-- The filtering loop of `Certificate.probe` from the source: a metric
`(name, days)` is yielded for a certificate exactly when its name is not
excluded, its status is not `"revoked"`, and
`days <= warning and days >= critical`. -/
def certProbe (exclude : List String) (warning critical : ℤ) :
    List CertEntry → List (String × ℤ)
  | [] => []
  | c :: rest =>
      if c.name ∉ exclude then
        if c.status ≠ "revoked" then
          if c.days ≤ warning ∧ c.days ≥ critical then
            (c.name, c.days) :: certProbe exclude warning critical rest
          else certProbe exclude warning critical rest
        else certProbe exclude warning critical rest
      else certProbe exclude warning critical rest

/-- Modelled from the spec: the severity ordering of the worst-of-all-metrics
rule (`CRITICAL > WARNING > UNKNOWN > OK`).  The aggregation itself is
performed by the external `nagiosplugin` library (`check.main`), which is not
part of this repository's sources. -/
def severity : PluginState → ℕ
  | PluginState.critical => 3
  | PluginState.warn => 2
  | PluginState.unknown => 1
  | PluginState.ok => 0

/-- Modelled from the spec: the most severe individual status observed across
all metrics of an invocation (`OK` for an empty list). -/
def worstState : List PluginState → PluginState
  | [] => PluginState.ok
  | s :: rest =>
      if severity (worstState rest) < severity s then s else worstState rest

/-- Modelled from the spec: the process exit code of an invocation is the exit
code of the worst status among its metrics. -/
def overallExitCode (states : List PluginState) : ℕ :=
  PluginState.exitCode (worstState states)

/-- C1: for samples with numeric in/out values at least the stored previous
values and a strictly positive interval, the returned rates are
`round(((current - previous) / interval) * 8, 2)` bits per second, in both
directions. -/
theorem throughput_rate_formula (id : String) (currentTime pi po pt vi vo : ℚ)
    (store : Store)
    (hi : Store.lookup store (id ++ "i") = some pi)
    (ho : Store.lookup store (id ++ "o") = some po)
    (ht : Store.lookup store (id ++ "t") = some pt)
    (hmi : pi ≤ vi) (hmo : po ≤ vo) (hpos : 0 < currentTime - pt) :
    (probe id currentTime (some vi) (some vo) store).1 =
      ProbeOutcome.metrics (pyRound2 ((vi - pi) / (currentTime - pt) * 8))
        (pyRound2 ((vo - po) / (currentTime - pt) * 8)) := by
  simp only [probe, Store.get, hi, ho, ht, Option.getD_some]
  rw [if_neg (not_lt.mpr hmi), if_neg (not_lt.mpr hmo), if_pos hpos]

/-- Witness for C1, the scenario of spec §8: previous sample
`(1000, 2000)` at `t = 100`, current sample `(2000, 2500)` at `t = 110`
gives `800` and `400` bits per second. -/
theorem throughput_rate_formula_witness :
    (probe "eth1" 110 (some 2000) (some 2500)
        [("eth1i", 1000), ("eth1o", 2000), ("eth1t", 100)]).1 =
      ProbeOutcome.metrics 800 400 := by
  have h := throughput_rate_formula "eth1" 110 1000 2000 100 2000 2500
    [("eth1i", 1000), ("eth1o", 2000), ("eth1t", 100)]
    (by decide) (by decide) (by decide) (by norm_num) (by norm_num) (by norm_num)
  rw [h]
  norm_num [pyRound2, roundHalfEven]

/-- C2 (amended): on a first run for a counter id (none of the three keys
stored) the probe writes the current sample as the new baseline, but it does
not report zero rates: the defaulted previous timestamp makes the interval
zero, so it terminates with the non-positive-interval failure, exit code 3. -/
theorem throughput_first_run (id : String) (currentTime vi vo : ℚ) (store : Store)
    (hi : Store.lookup store (id ++ "i") = none)
    (ho : Store.lookup store (id ++ "o") = none)
    (ht : Store.lookup store (id ++ "t") = none) :
    (probe id currentTime (some vi) (some vo) store).1 =
      ProbeOutcome.nonPositiveInterval ∧
    probeExitCode (probe id currentTime (some vi) (some vo) store).1 = some 3 ∧
    (probe id currentTime (some vi) (some vo) store).2 =
      Store.set (Store.set (Store.set store (id ++ "i") vi) (id ++ "o") vo)
        (id ++ "t") currentTime := by
  simp only [probe, Store.get, hi, ho, ht, Option.getD_none]
  rw [if_neg (lt_irrefl vi), if_neg (lt_irrefl vo),
    if_neg (by simp : ¬ (0 : ℚ) < currentTime - currentTime)]
  exact ⟨rfl, rfl, rfl⟩

/-- Witness for C2's amended theorem: the empty store with the sample
`(1000, 2000)` at `t = 100`. -/
theorem throughput_first_run_witness :
    (probe "eth1" 100 (some 1000) (some 2000) []).1 =
      ProbeOutcome.nonPositiveInterval ∧
    probeExitCode (probe "eth1" 100 (some 1000) (some 2000) []).1 = some 3 ∧
    (probe "eth1" 100 (some 1000) (some 2000) []).2 =
      Store.set (Store.set (Store.set [] ("eth1" ++ "i") 1000) ("eth1" ++ "o") 2000)
        ("eth1" ++ "t") 100 :=
  throughput_first_run "eth1" 100 1000 2000 [] (by decide) (by decide) (by decide)

/-- Counterexample to C2 as stated: on the very first invocation (empty store)
with sample `(1000, 2000)` at `t = 100`, the probe does not report a rate of 0
for both directions; it aborts with the non-positive-interval exit instead. -/
theorem throughput_first_run_counterexample :
    (probe "eth1" 100 (some 1000) (some 2000) []).1 ≠
      ProbeOutcome.metrics 0 0 := by
  have h : probe "eth1" 100 (some 1000) (some 2000) [] =
      (ProbeOutcome.nonPositiveInterval,
        [("eth1i", 1000), ("eth1o", 2000), ("eth1t", 100)]) := by
    have hi : ("eth1" ++ "i" : String) = "eth1i" := rfl
    have ho : ("eth1" ++ "o" : String) = "eth1o" := rfl
    have ht : ("eth1" ++ "t" : String) = "eth1t" := rfl
    have h1 : ("eth1i" : String) ≠ "eth1t" := by decide
    have h2 : ("eth1o" : String) ≠ "eth1t" := by decide
    simp only [probe, Store.get, Store.lookup, Store.set, hi, ho, ht, h1, h2]
    norm_num
  rw [h]
  simp

/-- C3: if the current in-byte value is strictly below the stored previous one
(or symmetrically for the out-byte value), the probe exits with code 3 and the
store is returned unmodified: the cookie is left by `sys.exit` before commit. -/
theorem throughput_counter_regression (id : String) (currentTime vi vo : ℚ)
    (store : Store) :
    (∀ pi, Store.lookup store (id ++ "i") = some pi → vi < pi →
      probe id currentTime (some vi) (some vo) store =
        (ProbeOutcome.invalidInput, store) ∧
      probeExitCode ProbeOutcome.invalidInput = some 3) ∧
    (∀ po, Store.lookup store (id ++ "o") = some po →
      Store.get store (id ++ "i") vi ≤ vi → vo < po →
      probe id currentTime (some vi) (some vo) store =
        (ProbeOutcome.invalidOutput, store) ∧
      probeExitCode ProbeOutcome.invalidOutput = some 3) := by
  constructor
  · intro pi hi hreg
    refine ⟨?_, rfl⟩
    simp only [probe, Store.get, hi, Option.getD_some]
    rw [if_pos hreg]
  · intro po ho hok hreg
    refine ⟨?_, rfl⟩
    simp only [probe, Store.get, ho, Option.getD_some] at hok ⊢
    rw [if_neg (not_lt.mpr hok), if_pos hreg]

/-- Witness for C3: both regression directions on concrete stores; the in-byte
direction with stored `5000` against current `4000`, and the out-byte
direction with stored `300` against current `200`. -/
theorem throughput_counter_regression_witness :
    probe "eth1" 110 (some 4000) (some 9000)
        [("eth1i", 5000), ("eth1o", 8000), ("eth1t", 100)] =
      (ProbeOutcome.invalidInput,
        [("eth1i", 5000), ("eth1o", 8000), ("eth1t", 100)]) ∧
    probe "tun7" 110 (some 4000) (some 200)
        [("tun7i", 3000), ("tun7o", 300), ("tun7t", 100)] =
      (ProbeOutcome.invalidOutput,
        [("tun7i", 3000), ("tun7o", 300), ("tun7t", 100)]) := by
  constructor
  · exact ((throughput_counter_regression "eth1" 110 4000 9000
      [("eth1i", 5000), ("eth1o", 8000), ("eth1t", 100)]).1 5000
      (by decide) (by norm_num)).1
  · exact ((throughput_counter_regression "tun7" 110 4000 200
      [("tun7i", 3000), ("tun7o", 300), ("tun7t", 100)]).2 300
      (by decide)
      (by rw [Store.get, (by decide : Store.lookup
          [("tun7i", 3000), ("tun7o", 300), ("tun7t", 100)] ("tun7" ++ "i") =
          some 3000)]; norm_num)
      (by norm_num)).1

/-- C4: when the sample passes validation but the interval
`currentTime - old_time` is not strictly positive, the probe terminates in the
`diff_time <= 0` branch with exit code 3 and returns no rate metrics, so no
division by the interval is ever performed. -/
theorem throughput_nonpositive_interval (id : String) (currentTime vi vo : ℚ)
    (store : Store)
    (hvi : Store.get store (id ++ "i") vi ≤ vi)
    (hvo : Store.get store (id ++ "o") vo ≤ vo)
    (hiv : currentTime - Store.get store (id ++ "t") currentTime ≤ 0) :
    (probe id currentTime (some vi) (some vo) store).1 =
      ProbeOutcome.nonPositiveInterval ∧
    probeExitCode (probe id currentTime (some vi) (some vo) store).1 =
      some 3 := by
  have h : (probe id currentTime (some vi) (some vo) store).1 =
      ProbeOutcome.nonPositiveInterval := by
    simp only [probe]
    rw [if_neg (not_lt.mpr hvi), if_neg (not_lt.mpr hvo), if_neg (not_lt.mpr hiv)]
  exact ⟨h, by rw [h]; rfl⟩

/-- Witness for C4: stored timestamp `100` equal to the current time `100`
(repeated invocation within the same timer tick), valid counters. -/
theorem throughput_nonpositive_interval_witness :
    (probe "eth1" 100 (some 2000) (some 2500)
        [("eth1i", 1000), ("eth1o", 2000), ("eth1t", 100)]).1 =
      ProbeOutcome.nonPositiveInterval ∧
    probeExitCode (probe "eth1" 100 (some 2000) (some 2500)
        [("eth1i", 1000), ("eth1o", 2000), ("eth1t", 100)]).1 = some 3 := by
  refine throughput_nonpositive_interval "eth1" 100 2000 2500
    [("eth1i", 1000), ("eth1o", 2000), ("eth1t", 100)] ?_ ?_ ?_
  · rw [Store.get, (by decide : Store.lookup
      [("eth1i", 1000), ("eth1o", 2000), ("eth1t", 100)] ("eth1" ++ "i") =
      some 1000)]
    norm_num
  · rw [Store.get, (by decide : Store.lookup
      [("eth1i", 1000), ("eth1o", 2000), ("eth1t", 100)] ("eth1" ++ "o") =
      some 2000)]
    norm_num
  · rw [Store.get, (by decide : Store.lookup
      [("eth1i", 1000), ("eth1o", 2000), ("eth1t", 100)] ("eth1" ++ "t") =
      some 100)]
    norm_num

/-- C5: the store returned by a probe invocation is all-or-nothing: either it
is the input store unchanged (exception or `sys.exit` inside the cookie block,
so no commit), or all three keys `<id>i`, `<id>o`, `<id>t` have been written
together in the one committed transaction. -/
theorem throughput_store_atomic (id : String) (currentTime : ℚ)
    (api_inbytes api_outbytes : Option ℚ) (store : Store) :
    (probe id currentTime api_inbytes api_outbytes store).2 = store ∨
    (∃ vi vo, api_inbytes = some vi ∧ api_outbytes = some vo ∧
      (probe id currentTime api_inbytes api_outbytes store).2 =
        Store.set (Store.set (Store.set store (id ++ "i") vi) (id ++ "o") vo)
          (id ++ "t") currentTime) := by
  match api_inbytes, api_outbytes with
  | none, _ => exact Or.inl rfl
  | some vi, none => exact Or.inl rfl
  | some vi, some vo =>
    simp only [probe]
    by_cases h1 : vi < Store.get store (id ++ "i") vi
    · rw [if_pos h1]; exact Or.inl rfl
    · rw [if_neg h1]
      by_cases h2 : vo < Store.get store (id ++ "o") vo
      · rw [if_pos h2]; exact Or.inl rfl
      · rw [if_neg h2]
        by_cases h3 : 0 < currentTime - Store.get store (id ++ "t") currentTime
        · rw [if_pos h3]; exact Or.inr ⟨vi, vo, rfl, rfl, rfl⟩
        · rw [if_neg h3]; exact Or.inr ⟨vi, vo, rfl, rfl, rfl⟩

/-- Witness for C5 (instantiation at a concrete invocation): the committed
branch of the disjunction at the spec §8 scenario. -/
theorem throughput_store_atomic_witness :
    (probe "eth1" 110 (some 2000) (some 2500)
        [("eth1i", 1000), ("eth1o", 2000), ("eth1t", 100)]).2 =
      [("eth1i", 1000), ("eth1o", 2000), ("eth1t", 100)] ∨
    (∃ vi vo, (some (2000 : ℚ)) = some vi ∧ (some (2500 : ℚ)) = some vo ∧
      (probe "eth1" 110 (some 2000) (some 2500)
          [("eth1i", 1000), ("eth1o", 2000), ("eth1t", 100)]).2 =
        Store.set (Store.set (Store.set
          [("eth1i", 1000), ("eth1o", 2000), ("eth1t", 100)]
          ("eth1" ++ "i") vi) ("eth1" ++ "o") vo) ("eth1" ++ "t") 110) :=
  throughput_store_atomic "eth1" 110 (some 2000) (some 2500)
    [("eth1i", 1000), ("eth1o", 2000), ("eth1t", 100)]

/-- C8: when the fetched in-byte or out-byte value is absent or non-numeric,
the probe raises (outcome `exception`), which the guarded runtime turns into
exit code 3; it never returns rate metrics, in particular never a zero rate. -/
theorem throughput_invalid_sample (id : String) (currentTime : ℚ)
    (api_inbytes api_outbytes : Option ℚ) (store : Store)
    (h : api_inbytes = none ∨ api_outbytes = none) :
    (probe id currentTime api_inbytes api_outbytes store).1 =
      ProbeOutcome.exception ∧
    probeExitCode (probe id currentTime api_inbytes api_outbytes store).1 =
      some 3 ∧
    ∀ r₁ r₂, (probe id currentTime api_inbytes api_outbytes store).1 ≠
      ProbeOutcome.metrics r₁ r₂ := by
  have hout : (probe id currentTime api_inbytes api_outbytes store).1 =
      ProbeOutcome.exception := by
    match api_inbytes, api_outbytes with
    | none, _ => rfl
    | some vi, none => rfl
    | some vi, some vo =>
      rcases h with h | h
      · exact absurd h (by simp)
      · exact absurd h (by simp)
  refine ⟨hout, by rw [hout]; rfl, ?_⟩
  intro r₁ r₂
  rw [hout]
  simp

/-- Witness for C8: an absent/non-numeric in-byte value with a present
out-byte value, against a populated store. -/
theorem throughput_invalid_sample_witness :
    (probe "eth1" 110 none (some 2500)
        [("eth1i", 1000), ("eth1o", 2000), ("eth1t", 100)]).1 =
      ProbeOutcome.exception ∧
    probeExitCode (probe "eth1" 110 none (some 2500)
        [("eth1i", 1000), ("eth1o", 2000), ("eth1t", 100)]).1 = some 3 ∧
    ∀ r₁ r₂, (probe "eth1" 110 none (some 2500)
        [("eth1i", 1000), ("eth1o", 2000), ("eth1t", 100)]).1 ≠
      ProbeOutcome.metrics r₁ r₂ :=
  throughput_invalid_sample "eth1" 110 none (some 2500)
    [("eth1i", 1000), ("eth1o", 2000), ("eth1t", 100)] (Or.inl rfl)

/-- Only the `ok` state has severity zero. -/
theorem severity_eq_zero {s : PluginState} (h : severity s = 0) :
    s = PluginState.ok := by
  cases s <;> simp [severity] at h ⊢

/-- C6: the overall exit code is that of the most severe individual status
under the ordering CRITICAL > WARNING > UNKNOWN > OK: the worst state bounds
every produced status and is itself among them (or the OK default), and the
two example status lists exit with 1 and 2 respectively. -/
theorem worst_of_all_metrics :
    (∀ states s, s ∈ states → severity s ≤ severity (worstState states)) ∧
    (∀ states, states ≠ [] → worstState states ∈ states) ∧
    overallExitCode [PluginState.ok, PluginState.warn, PluginState.ok] = 1 ∧
    overallExitCode
      [PluginState.ok, PluginState.critical, PluginState.warn] = 2 := by
  have hub : ∀ states s, s ∈ states → severity s ≤ severity (worstState states) := by
    intro states
    induction states with
    | nil => intro s hs; cases hs
    | cons a rest ih =>
      intro s hs
      rcases List.mem_cons.mp hs with rfl | hs
      · simp only [worstState]
        by_cases h : severity (worstState rest) < severity s
        · rw [if_pos h]
        · rw [if_neg h]; exact not_lt.mp h
      · simp only [worstState]
        by_cases h : severity (worstState rest) < severity a
        · rw [if_pos h]; exact le_of_lt (lt_of_le_of_lt (ih s hs) h)
        · rw [if_neg h]; exact ih s hs
  refine ⟨hub, ?_, by decide, by decide⟩
  intro states
  induction states with
  | nil => intro h; exact absurd rfl h
  | cons a rest ih =>
    intro _
    simp only [worstState]
    by_cases h : severity (worstState rest) < severity a
    · rw [if_pos h]; exact List.mem_cons_self a rest
    · rw [if_neg h]
      cases rest with
      | nil =>
        have ha : a = PluginState.ok :=
          severity_eq_zero (Nat.le_zero.mp (not_lt.mp h))
        subst ha
        simp [worstState]
      | cons b t =>
        exact List.mem_cons_of_mem a (ih (by simp))

/-- Witness for C6 (instantiation of the bound at a concrete status list). -/
theorem worst_of_all_metrics_witness :
    severity PluginState.unknown ≤ severity (worstState
      [PluginState.unknown, PluginState.critical]) ∧
    overallExitCode [PluginState.ok, PluginState.warn, PluginState.ok] = 1 :=
  ⟨worst_of_all_metrics.1 [PluginState.unknown, PluginState.critical]
    PluginState.unknown (by simp), worst_of_all_metrics.2.2.1⟩

/-- C7: the certificate context uses the inverted convention, smaller
days-remaining is worse, with both boundaries inclusive: CRITICAL for
`value <= critical`, WARNING for `critical < value <= warning`, OK above
both. -/
theorem certificate_threshold_inverted (warning critical value : ℤ) :
    (value ≤ critical → certEvaluate warning critical value =
      PluginState.critical) ∧
    (critical < value → value ≤ warning → certEvaluate warning critical value =
      PluginState.warn) ∧
    (critical < value → warning < value → certEvaluate warning critical value =
      PluginState.ok) := by
  refine ⟨fun h => ?_, fun h1 h2 => ?_, fun h1 h2 => ?_⟩
  · rw [certEvaluate, if_pos h]
  · rw [certEvaluate, if_neg (not_le.mpr h1), if_pos h2]
  · rw [certEvaluate, if_neg (not_le.mpr h1), if_neg (not_le.mpr h2)]

/-- Witness for C7: thresholds warning `30`, critical `10`; days `10`, `30`
and `31` land on CRITICAL, WARNING and OK, the two boundary days inclusive. -/
theorem certificate_threshold_inverted_witness :
    certEvaluate 30 10 10 = PluginState.critical ∧
    certEvaluate 30 10 30 = PluginState.warn ∧
    certEvaluate 30 10 31 = PluginState.ok :=
  ⟨(certificate_threshold_inverted 30 10 10).1 (by norm_num),
   (certificate_threshold_inverted 30 10 30).2.1 (by norm_num) (by norm_num),
   (certificate_threshold_inverted 30 10 31).2.2 (by norm_num) (by norm_num)⟩

/-- C10: every metric the certificate probe yields comes from a certificate
that is not excluded, not revoked, and whose days-remaining lies in the closed
band `critical <= days <= warning`; and a certificate whose days-remaining is
strictly below the critical threshold contributes no metric at all. -/
theorem certificate_band_filter (exclude : List String) (warning critical : ℤ) :
    (∀ certs m, m ∈ certProbe exclude warning critical certs →
      ∃ c, c ∈ certs ∧ m = (c.name, c.days) ∧ c.name ∉ exclude ∧
        c.status ≠ "revoked" ∧ critical ≤ c.days ∧ c.days ≤ warning) ∧
    (∀ c rest, c.days < critical →
      certProbe exclude warning critical (c :: rest) =
        certProbe exclude warning critical rest) := by
  constructor
  · intro certs
    induction certs with
    | nil => intro m hm; simp [certProbe] at hm
    | cons c rest ih =>
      intro m hm
      simp only [certProbe] at hm
      by_cases hex : c.name ∉ exclude
      · rw [if_pos hex] at hm
        by_cases hrev : c.status ≠ "revoked"
        · rw [if_pos hrev] at hm
          by_cases hband : c.days ≤ warning ∧ c.days ≥ critical
          · rw [if_pos hband] at hm
            rcases List.mem_cons.mp hm with rfl | hm
            · exact ⟨c, List.mem_cons_self c rest, rfl, hex, hrev,
                hband.2, hband.1⟩
            · rcases ih m hm with ⟨d, hd, hrest⟩
              exact ⟨d, List.mem_cons_of_mem c hd, hrest⟩
          · rw [if_neg hband] at hm
            rcases ih m hm with ⟨d, hd, hrest⟩
            exact ⟨d, List.mem_cons_of_mem c hd, hrest⟩
        · rw [if_neg hrev] at hm
          rcases ih m hm with ⟨d, hd, hrest⟩
          exact ⟨d, List.mem_cons_of_mem c hd, hrest⟩
      · rw [if_neg hex] at hm
        rcases ih m hm with ⟨d, hd, hrest⟩
        exact ⟨d, List.mem_cons_of_mem c hd, hrest⟩
  · intro c rest hlt
    simp only [certProbe]
    by_cases hex : c.name ∉ exclude
    · rw [if_pos hex]
      by_cases hrev : c.status ≠ "revoked"
      · rw [if_pos hrev,
          if_neg (fun hband => absurd hband.2 (not_le.mpr hlt))]
      · rw [if_neg hrev]
    · rw [if_neg hex]

/-- Witness for C10: with warning `30`, critical `10`, a certificate with 5
days remaining (below critical) yields nothing, while one with 20 days in the
band yields its metric; the produced metric satisfies all band conditions. -/
theorem certificate_band_filter_witness :
    certProbe [] 30 10 [⟨"expiringSoon", 5, ""⟩, ⟨"inBand", 20, ""⟩] =
      certProbe [] 30 10 [⟨"inBand", 20, ""⟩] ∧
    ∃ c, c ∈ [(⟨"inBand", 20, ""⟩ : CertEntry)] ∧
      ((("inBand" : String), (20 : ℤ)) = (c.name, c.days)) ∧ c.name ∉ ([] : List String) ∧
      c.status ≠ "revoked" ∧ (10 : ℤ) ≤ c.days ∧ c.days ≤ 30 :=
  ⟨(certificate_band_filter [] 30 10).2 ⟨"expiringSoon", 5, ""⟩
      [⟨"inBand", 20, ""⟩] (by norm_num),
   (certificate_band_filter [] 30 10).1 [⟨"inBand", 20, ""⟩] ("inBand", 20)
      (by simp [certProbe])⟩

end CheckPaloAlto
